import Mathlib

/-!
Shallow embedding of the multi-tenancy subsystem of the `tabby` repository
(tenant provisioning signals, tenant/domain models, and the tenant-control
REST serializers), together with theorems settling the specification claims.

Python strings are modelled as `List Char`; machine-level string operations
(`str.lower`, `re.sub`, slicing, `str.rstrip`, `str.strip`) are embedded as
executable functions on `List Char`.  Fallible Python code (indexing that can
raise `IndexError`, signal handlers that can propagate exceptions) is embedded
with `Option` / `Except`.
-/

namespace Tabby

/-- Embeds Python `str.lower()` applied per character (exact on ASCII, which is all
that matters downstream: every non-`[a-z0-9_-]` character is replaced anyway). -/
def pyLower (c : Char) : Char :=
  if 'A' ≤ c ∧ c ≤ 'Z' then Char.ofNat (c.toNat + 32) else c

/-- The character class `[a-z0-9_]` of the schema-name regex. -/
def isSchemaChar (c : Char) : Bool :=
  decide (('a' ≤ c ∧ c ≤ 'z') ∨ ('0' ≤ c ∧ c ≤ '9') ∨ c = '_')

/-- The character class `[a-z0-9-]` used by `generate_subdomain`. -/
def isSubdomainChar (c : Char) : Bool :=
  decide (('a' ≤ c ∧ c ≤ 'z') ∨ ('0' ≤ c ∧ c ≤ '9') ∨ c = '-')

/-- Embeds Python `str.isalpha()` restricted to ASCII (the argument it is applied to
is always drawn from `[a-z0-9_]`, so the ASCII case is exact). -/
def pyIsAlpha (c : Char) : Bool :=
  decide (('a' ≤ c ∧ c ≤ 'z') ∨ ('A' ≤ c ∧ c ≤ 'Z'))

/-- Embeds Python `s.rstrip(x)` for a single-character strip set: removes the maximal
trailing run of `x`. -/
def rstripChar (x : Char) (s : List Char) : List Char :=
  (s.reverse.dropWhile (fun c => c == x)).reverse

/-- Embeds Python `s.strip(x)` for a single-character strip set: removes the maximal
leading and trailing runs of `x`. -/
def pyStrip (x : Char) (s : List Char) : List Char :=
  rstripChar x (s.dropWhile (fun c => c == x))

/-- Embeds `re.sub` of the pattern dash-plus with a single dash: collapse every maximal run of hyphens to a single
hyphen.  The boolean state records whether the previously emitted character was
a hyphen. -/
def collapseGo : Bool → List Char → List Char
  | _, [] => []
  | true, c :: rest =>
    if c = '-' then collapseGo true rest
    else c :: collapseGo false rest
  | false, c :: rest =>
    if c = '-' then '-' :: collapseGo true rest
    else c :: collapseGo false rest

def collapseHyphens (s : List Char) : List Char :=
  collapseGo false s

/-- Embeds `generate_schema_name` (src/tabbycat/tenants/signals.py, lines 18-41).

```python
schema_name = re.sub(r"[^a-z0-9_]", "_", username.lower())
if not schema_name[0].isalpha():
    schema_name = "tenant_" + schema_name
schema_name = schema_name[:63]
schema_name = schema_name.rstrip("_")
return schema_name
```

`schema_name[0]` raises `IndexError` on the empty string, hence the `Option`
result: `none` models the propagated exception. -/
def generate_schema_name (username : List Char) : Option (List Char) :=
  match (username.map pyLower).map (fun c => if isSchemaChar c then c else '_') with
  | [] => none
  | c0 :: rest =>
    some (rstripChar '_'
      ((if pyIsAlpha c0 then c0 :: rest
        else "tenant_".data ++ (c0 :: rest)).take 63))

/-- The value of the `subdomain` variable in `generate_subdomain` just before
the final `[:63]` truncation. -/
def subdomainBeforeTruncation (username : List Char) : List Char :=
  collapseHyphens
    (pyStrip '-' ((username.map pyLower).map
      (fun c => if isSubdomainChar c then c else '-')))

/-- Embeds `generate_subdomain` (src/tabbycat/tenants/signals.py, lines 44-58).

```python
subdomain = re.sub(r"[^a-z0-9-]", "-", username.lower())
subdomain = subdomain.strip("-")
subdomain = re.sub(r"-+", "-", subdomain)
subdomain = subdomain[:63]
return subdomain
``` -/
def generate_subdomain (username : List Char) : List Char :=
  (subdomainBeforeTruncation username).take 63

/-- The regex `^[a-z][a-z0-9_]{0,62}$` from the spec, as a decidable check. -/
def matchesSchemaRegex : List Char → Bool
  | [] => false
  | c :: rest =>
    decide ('a' ≤ c ∧ c ≤ 'z') && rest.all isSchemaChar && decide (rest.length ≤ 62)

/-- Holds iff the string contains no two consecutive hyphens. -/
def noDoubleHyphen : List Char → Bool
  | a :: b :: rest => !(a == '-' && b == '-') && noDoubleHyphen (b :: rest)
  | _ => true

/-- States the property the spec asserts of the `generate_subdomain` output: only
`[a-z0-9-]` characters, no leading hyphen, no trailing hyphen, no repeated
hyphens, length at most 63. -/
def subdomainOk (r : List Char) : Bool :=
  r.all isSubdomainChar && !(r.head? == some '-') && !(r.getLast? == some '-')
    && noDoubleHyphen r && decide (r.length ≤ 63)

/-- A 64-character username: 62 copies of `a`, then a dot, then `b`.  After
substitution it becomes 62 `a`s, a hyphen, and a `b`; the final `[:63]`
truncation then cuts directly after the hyphen. -/
def longDotUsername : List Char := List.replicate 62 'a' ++ ['.', 'b']

/-! ### Decimal rendering of the collision counters

Python renders the collision counter with an f-string appending the counter (with or without an underscore separator); the counter is a positive `int`, so its rendering is
its usual base-10 numeral.  `natToDecimal` embeds that rendering (fuel-based so
that it reduces by `decide`/`rfl`); `decimalToNat` is a proof-side left inverse
used to show the rendering injective. -/

def digitChar : Nat → Char
  | 0 => '0' | 1 => '1' | 2 => '2' | 3 => '3' | 4 => '4'
  | 5 => '5' | 6 => '6' | 7 => '7' | 8 => '8' | _ => '9'

def toDecimalAux : Nat → Nat → List Char → List Char
  | 0, _, acc => acc
  | fuel + 1, n, acc =>
    if n < 10 then digitChar n :: acc
    else toDecimalAux fuel (n / 10) (digitChar (n % 10) :: acc)

/-- Computes the base-10 numeral of `n`, most significant digit first (= Python `str(n)`
for `n ≥ 0`). -/
def natToDecimal (n : Nat) : List Char :=
  toDecimalAux (n + 1) n []

def decStep (a : Nat) (c : Char) : Nat := 10 * a + (c.toNat - 48)

def decimalToNat (l : List Char) : Nat :=
  l.foldl decStep 0

/-! ### Uniqueness-resolution loops (signals.py lines 94-99 and 113-122) -/

/-- Candidate schema names tried by the `while` loop at signals.py:94-99:
`base`, `base_1`, `base_2`, … -/
def schemaCandidate (base : List Char) : Nat → List Char
  | 0 => base
  | k + 1 => base ++ '_' :: natToDecimal (k + 1)

/-- Candidate subdomains tried by the `while` loop at signals.py:113-122:
`base`, `base1`, `base2`, … (no separator). -/
def subdomainCandidate (base : List Char) : Nat → List Char
  | 0 => base
  | k + 1 => base ++ natToDecimal (k + 1)

/-- The full domain compared against existing `Domain.domain` values:
the f-string joining the subdomain, a dot, and the base domain. -/
def fullDomainCandidate (base base_domain : List Char) (k : Nat) : List Char :=
  subdomainCandidate base k ++ '.' :: base_domain

/-- The shape shared by both `while not unique` loops: starting from candidate
index `k`, return the first candidate not in `existing`.  The Python loop has
no fuel; here fuel `existing.length + 1` is always sufficient (proved below),
so `none` is dead code. -/
def resolveUnique (cand : Nat → List Char) (existing : List (List Char)) :
    Nat → Nat → Option (List Char)
  | 0, _ => none
  | fuel + 1, k =>
    if cand k ∈ existing then resolveUnique cand existing fuel (k + 1)
    else some (cand k)

/-! ### The tenant-provisioning signal handler (signals.py lines 61-138) -/

/-- The slice of a Django `User` instance read by the signal handler:
`username`, `is_superuser`, and whether `hasattr(instance, "tenant")`. -/
structure UserRec where
  username : List Char
  is_superuser : Bool
  has_tenant : Bool

/-- The slice of the shared database read/written by the handler: the existing
`Client.schema_name` values and the existing `Domain.domain` values. -/
structure TenantDB where
  schemas : List (List Char)
  domains : List (List Char)
deriving DecidableEq

inductive ProvisionOutcome where
  /-- the handler returned early (not created / has tenant / superuser) -/
  | skipped
  /-- tenant and domain created, with the schema name and full domain used -/
  | provisioned (schema full_domain : List Char)
  /-- an exception inside the `try` block was caught and logged -/
  | loggedError
deriving DecidableEq

/-- Embeds `create_tenant_on_user_signup` (signals.py lines 61-138).

The Python handler can raise (propagating out of `post_save` and aborting the
user save): that is the `Except.error` case.  `inst` is the `instance`
argument.  `client_create_ok` / `domain_create_ok` model whether the database
raises an arbitrary exception inside `Client.objects.create` /
`Domain.objects.create` (both calls sit inside the `try` block).

Mirrors the source order: the `created` / `hasattr` / `is_superuser` early
returns, then schema-name derivation and the schema uniqueness loop (both
OUTSIDE the `try`), then the `try` block containing tenant creation, subdomain
derivation, the domain uniqueness loop, and domain creation. -/
def create_tenant_on_user_signup (created : Bool) (inst : UserRec)
    (db : TenantDB) (base_domain : List Char)
    (client_create_ok domain_create_ok : Bool) :
    Except String (ProvisionOutcome × TenantDB) :=
  if !created then .ok (.skipped, db)
  else if inst.has_tenant then .ok (.skipped, db)
  else if inst.is_superuser then .ok (.skipped, db)
  else
    match generate_schema_name inst.username with
    | none => .error "IndexError: string index out of range"
    | some base =>
      match resolveUnique (schemaCandidate base) db.schemas
          (db.schemas.length + 1) 0 with
      | none => .error "unreachable: schema uniqueness loop"
      | some schema_name =>
        -- try block starts here (signals.py line 101); tenant creation first
        if !client_create_ok then .ok (.loggedError, db)
        else
          match resolveUnique
              (fullDomainCandidate (generate_subdomain inst.username) base_domain)
              db.domains (db.domains.length + 1) 0 with
          | none => .error "unreachable: domain uniqueness loop"
          | some full_domain =>
            if !domain_create_ok then
              -- domain creation failed: the tenant row already exists
              .ok (.loggedError, ⟨schema_name :: db.schemas, db.domains⟩)
            else .ok (.provisioned schema_name full_domain,
              ⟨schema_name :: db.schemas, full_domain :: db.domains⟩)

/-! ### Tenant model (src/tabbycat/tenants/models.py) -/

/-- The concrete fields of `Client` (models.py lines 18-107).
`suspended_at` is a nullable timestamp; timestamps are abstract `Nat` ticks. -/
structure ClientRec where
  schema_name : String
  name : String
  owner : Nat
  is_active : Bool
  is_suspended : Bool
  suspended_at : Option Nat
  plan : String
  storage_used_mb : Int
  total_users : Int
  total_tournaments : Int
  created_on : Nat
  last_activity : Nat
  notes : String
deriving DecidableEq

/-- Embeds `Client.suspend` (models.py lines 112-116); `now` is the value of `timezone.now()`. -/
def Client.suspend (c : ClientRec) (now : Nat) : ClientRec :=
  { c with is_suspended := true, suspended_at := some now }

/-- Embeds `Client.unsuspend` (models.py lines 118-122). -/
def Client.unsuspend (c : ClientRec) : ClientRec :=
  { c with is_suspended := false, suspended_at := none }

/-- Embeds `Client.can_access` (models.py lines 124-126). -/
def Client.can_access (c : ClientRec) : Bool :=
  c.is_active && !c.is_suspended

/-- The concrete fields of `Domain` (models.py lines 155-176, via
`DomainMixin`): the domain string, the tenant (`select_related` pulls the
row), and the primary flag.  `Domain.domain` carries a unique constraint, so a
lookup by domain string is modelled by `List.find?`. -/
structure DomainRec where
  domain : List Char
  tenant : ClientRec
  is_primary : Bool
deriving DecidableEq

/-- Embeds `Domain.get_tenant_from_subdomain` (models.py lines 178-197).
`admin_subdomain` and `tenant_base_domain` are the settings values;
`domains` the `Domain` table.  `Domain.DoesNotExist` is caught and mapped to
`None`, which the `find?` model returns directly. -/
def Domain.get_tenant_from_subdomain (admin_subdomain tenant_base_domain : List Char)
    (domains : List DomainRec) (subdomain : List Char) : Option ClientRec :=
  if subdomain = admin_subdomain then none
  else
    match domains.find?
        (fun d => d.domain == subdomain ++ '.' :: tenant_base_domain) with
    | some d => if Client.can_access d.tenant then some d.tenant else none
    | none => none

/-! ### Tenant-control serializers (src/tabbycat/tenant_control/serializers.py) -/

/-- Embeds `TenantListSerializer.get_status` (serializers.py lines 72-79). -/
def TenantListSerializer.get_status (obj : ClientRec) : String :=
  if obj.is_suspended then "suspended"
  else if obj.is_active then "active"
  else "inactive"

/-- Embeds `TenantDetailSerializer.get_status` (serializers.py lines 126-133). -/
def TenantDetailSerializer.get_status (obj : ClientRec) : String :=
  if obj.is_suspended then "suspended"
  else if obj.is_active then "active"
  else "inactive"

/-- Embeds Python truthiness of the optional reason field: `None` (key absent) and the
empty string are falsy; any other string is truthy. -/
def pyTruthy : Option String → Bool
  | none => false
  | some s => decide (s ≠ "")

/-- Embeds `TenantSuspendSerializer.validate` (serializers.py lines 227-233).
A `rest_framework` `ValidationError` keyed on a field is the `Except.error`
case, carrying the field name and the message. -/
def TenantSuspendSerializer.validate (suspend : Bool) (reason : Option String) :
    Except (String × String) (Bool × Option String) :=
  if suspend && !pyTruthy reason then
    .error ("reason", "Reason is required when suspending a tenant.")
  else .ok (suspend, reason)

/-- The slice of a `User` row read by `validate_owner_id`: primary key and
whether the user already owns a tenant (`hasattr(user, "tenant")`). -/
structure AdminUserRec where
  id : Nat
  has_tenant : Bool
deriving DecidableEq

/-- Embeds `TenantCreateSerializer.validate_owner_id` (serializers.py lines 178-188).
`User.objects.get(id=value)` on the unique primary key is modelled by
`List.find?`; `User.DoesNotExist` is caught and turned into a field-level
`ValidationError` on `owner_id` (the `Except.error` case). -/
def TenantCreateSerializer.validate_owner_id (users : List AdminUserRec)
    (value : Nat) : Except (String × String) Nat :=
  match users.find? (fun u => u.id == value) with
  | none => .error ("owner_id", "User not found.")
  | some u =>
    if u.has_tenant then .error ("owner_id", "User already has a tenant.")
    else .ok value

/-! ## Helper lemmas: decimal rendering -/

lemma digitChar_toNat {d : Nat} (h : d < 10) : (digitChar d).toNat = 48 + d := by
  interval_cases d <;> rfl

lemma toDecimalAux_foldl (fuel : Nat) :
    ∀ n acc a, n < fuel →
      ∃ p, 0 < p ∧
        List.foldl decStep a (toDecimalAux fuel n acc)
          = List.foldl decStep (a * 10 ^ p + n) acc := by
  induction fuel with
  | zero => intro n acc a h; omega
  | succ fuel ih =>
    intro n acc a h
    by_cases h10 : n < 10
    · refine ⟨1, Nat.one_pos, ?_⟩
      have hv : decStep a (digitChar n) = a * 10 ^ 1 + n := by
        simp only [decStep, digitChar_toNat h10, pow_one]
        omega
      simp only [toDecimalAux, if_pos h10, List.foldl_cons, hv]
    · have hn : 0 < n := by omega
      have hrec : n / 10 < fuel := by
        have := Nat.div_lt_self hn (by norm_num : (1:Nat) < 10)
        omega
      obtain ⟨p, hp, hfold⟩ := ih (n / 10) (digitChar (n % 10) :: acc) a hrec
      refine ⟨p + 1, by omega, ?_⟩
      simp only [toDecimalAux, if_neg h10]
      rw [hfold, List.foldl_cons]
      have hv : decStep (a * 10 ^ p + n / 10) (digitChar (n % 10))
          = a * 10 ^ (p + 1) + n := by
        have hmod : n % 10 < 10 := Nat.mod_lt n (by norm_num)
        have hdm : 10 * (n / 10) + n % 10 = n := Nat.div_add_mod n 10
        simp only [decStep, digitChar_toNat hmod]
        calc 10 * (a * 10 ^ p + n / 10) + (48 + n % 10 - 48)
            = a * (10 ^ p * 10) + (10 * (n / 10) + n % 10) := by
              rw [Nat.add_sub_cancel_left]; ring
          _ = a * 10 ^ (p + 1) + n := by rw [hdm, pow_succ]
      rw [hv]

lemma decimalToNat_natToDecimal (n : Nat) : decimalToNat (natToDecimal n) = n := by
  obtain ⟨p, _, h⟩ := toDecimalAux_foldl (n + 1) n [] 0 (Nat.lt_succ_self n)
  simpa [decimalToNat, natToDecimal] using h

lemma natToDecimal_injective : Function.Injective natToDecimal := by
  intro m n h
  have hm := decimalToNat_natToDecimal m
  rw [h, decimalToNat_natToDecimal] at hm
  exact hm.symm

lemma natToDecimal_ne_nil (n : Nat) : natToDecimal n ≠ [] := by
  intro h
  have h0 := decimalToNat_natToDecimal n
  rw [h] at h0
  simp [decimalToNat] at h0
  subst h0
  exact absurd h (by decide)

/-! ## Helper lemmas: candidate injectivity -/

lemma schemaCandidate_injective (base : List Char) :
    Function.Injective (schemaCandidate base) := by
  intro i j h
  match i, j with
  | 0, 0 => rfl
  | 0, j + 1 =>
    exfalso
    have hl := congrArg List.length h
    simp [schemaCandidate] at hl
  | i + 1, 0 =>
    exfalso
    have hl := congrArg List.length h
    simp [schemaCandidate] at hl
  | i + 1, j + 1 =>
    simp only [schemaCandidate] at h
    have h2 := List.append_cancel_left h
    injection h2 with _ h3
    have := natToDecimal_injective h3
    omega

lemma subdomainCandidate_injective (base : List Char) :
    Function.Injective (subdomainCandidate base) := by
  intro i j h
  match i, j with
  | 0, 0 => rfl
  | 0, j + 1 =>
    exfalso
    have hl := congrArg List.length h
    have hpos : 0 < (natToDecimal (j + 1)).length :=
      List.length_pos.mpr (natToDecimal_ne_nil (j + 1))
    simp only [subdomainCandidate, List.length_append] at hl
    omega
  | i + 1, 0 =>
    exfalso
    have hl := congrArg List.length h
    have hpos : 0 < (natToDecimal (i + 1)).length :=
      List.length_pos.mpr (natToDecimal_ne_nil (i + 1))
    simp only [subdomainCandidate, List.length_append] at hl
    omega
  | i + 1, j + 1 =>
    simp only [subdomainCandidate] at h
    have h2 := List.append_cancel_left h
    have := natToDecimal_injective h2
    omega

lemma fullDomainCandidate_injective (base base_domain : List Char) :
    Function.Injective (fullDomainCandidate base base_domain) := by
  intro i j h
  exact subdomainCandidate_injective base (List.append_cancel_right h)

/-! ## Helper lemmas: the uniqueness-resolution loop -/

lemma resolveUnique_eq_none (cand : Nat → List Char) (existing : List (List Char)) :
    ∀ fuel k, resolveUnique cand existing fuel k = none →
      ∀ i, i < fuel → cand (k + i) ∈ existing := by
  intro fuel
  induction fuel with
  | zero => intro k _ i hi; omega
  | succ fuel ih =>
    intro k h i hi
    rw [resolveUnique] at h
    by_cases hmem : cand k ∈ existing
    · rw [if_pos hmem] at h
      match i with
      | 0 => simpa using hmem
      | i + 1 =>
        have hk : k + 1 + i = k + (i + 1) := by omega
        have := ih (k + 1) h i (by omega)
        rwa [hk] at this
    · rw [if_neg hmem] at h
      cases h

lemma resolveUnique_spec (cand : Nat → List Char) (existing : List (List Char)) :
    ∀ fuel k r, resolveUnique cand existing fuel k = some r →
      ∃ i, r = cand (k + i) ∧ r ∉ existing ∧ ∀ j, j < i → cand (k + j) ∈ existing := by
  intro fuel
  induction fuel with
  | zero => intro k r h; cases h
  | succ fuel ih =>
    intro k r h
    rw [resolveUnique] at h
    by_cases hmem : cand k ∈ existing
    · rw [if_pos hmem] at h
      obtain ⟨i, hr, hnot, hall⟩ := ih (k + 1) r h
      refine ⟨i + 1, ?_, hnot, ?_⟩
      · rw [hr]; congr 1; omega
      · intro j hj
        match j with
        | 0 => simpa using hmem
        | j + 1 =>
          have hk : k + 1 + j = k + (j + 1) := by omega
          have := hall j (by omega)
          rwa [hk] at this
    · rw [if_neg hmem] at h
      injection h with h
      refine ⟨0, ?_, ?_, by omega⟩
      · rw [← h, Nat.add_zero]
      · rw [← h]; exact hmem

lemma resolveUnique_isSome (cand : Nat → List Char) (existing : List (List Char))
    (hinj : Function.Injective cand) :
    ∃ r, resolveUnique cand existing (existing.length + 1) 0 = some r := by
  cases h : resolveUnique cand existing (existing.length + 1) 0 with
  | some r => exact ⟨r, rfl⟩
  | none =>
    exfalso
    have hmem := resolveUnique_eq_none cand existing _ 0 h
    have hsub : ∀ x ∈ (List.range (existing.length + 1)).map cand, x ∈ existing := by
      intro x hx
      obtain ⟨i, hi, rfl⟩ := List.mem_map.mp hx
      simpa using hmem i (List.mem_range.mp hi)
    have hnd : ((List.range (existing.length + 1)).map cand).Nodup :=
      (List.nodup_range _).map hinj
    have h1 : ((List.range (existing.length + 1)).map cand).toFinset.card
        = existing.length + 1 := by
      rw [List.toFinset_card_of_nodup hnd, List.length_map, List.length_range]
    have h2 : ((List.range (existing.length + 1)).map cand).toFinset
        ⊆ existing.toFinset := by
      intro x hx
      rw [List.mem_toFinset] at hx ⊢
      exact hsub x hx
    have h3 := Finset.card_le_card h2
    have h4 := existing.toFinset_card_le
    omega

lemma resolveUnique_full (cand : Nat → List Char) (existing : List (List Char))
    (hinj : Function.Injective cand) :
    ∃ k, resolveUnique cand existing (existing.length + 1) 0 = some (cand k) ∧
      cand k ∉ existing ∧ ∀ j, j < k → cand j ∈ existing := by
  obtain ⟨r, hr⟩ := resolveUnique_isSome cand existing hinj
  obtain ⟨i, hre, hnot, hall⟩ := resolveUnique_spec cand existing _ 0 r hr
  have hre' : r = cand i := by simpa using hre
  refine ⟨i, ?_, ?_, ?_⟩
  · rw [hr, hre']
  · rw [← hre']; exact hnot
  · intro j hj
    simpa using hall j hj

/-! ## Helper lemmas: dropWhile / rstrip / strip -/

lemma head?_dropWhile_not (p : Char → Bool) (l : List Char) {c : Char}
    (h : (l.dropWhile p).head? = some c) : p c = false := by
  induction l with
  | nil => simp [List.dropWhile] at h
  | cons a rest ih =>
    by_cases hpa : p a = true
    · rw [List.dropWhile_cons, if_pos hpa] at h
      exact ih h
    · rw [List.dropWhile_cons, if_neg hpa] at h
      simp only [List.head?_cons, Option.some.injEq] at h
      rw [← h]
      simpa using hpa

lemma getLast?_dropWhile (p : Char → Bool) (l : List Char) {c : Char}
    (hc : p c = false) (h : l.getLast? = some c) :
    (l.dropWhile p).getLast? = some c := by
  induction l with
  | nil => simp at h
  | cons a rest ih =>
    cases rest with
    | nil =>
      simp only [List.getLast?_singleton, Option.some.injEq] at h
      subst h
      rw [List.dropWhile_cons, if_neg (by simp [hc])]
      simp
    | cons b bs =>
      rw [List.getLast?_cons_cons] at h
      by_cases hpa : p a = true
      · rw [List.dropWhile_cons, if_pos hpa]
        exact ih h
      · rw [List.dropWhile_cons, if_neg hpa, List.getLast?_cons_cons]
        exact h

lemma rstripChar_sublist (x : Char) (s : List Char) :
    List.Sublist (rstripChar x s) s := by
  have h1 : List.Sublist (s.reverse.dropWhile (fun c => c == x)) s.reverse :=
    List.dropWhile_sublist _
  have h2 := h1.reverse
  rwa [List.reverse_reverse] at h2

lemma rstripChar_subset (x : Char) (s : List Char) {c : Char}
    (h : c ∈ rstripChar x s) : c ∈ s :=
  (rstripChar_sublist x s).subset h

lemma rstripChar_length_le (x : Char) (s : List Char) :
    (rstripChar x s).length ≤ s.length :=
  (rstripChar_sublist x s).length_le

lemma rstripChar_getLast? (x : Char) (s : List Char) :
    (rstripChar x s).getLast? ≠ some x := by
  intro h
  rw [rstripChar, List.getLast?_reverse] at h
  have := head?_dropWhile_not _ _ h
  simp at this

lemma rstripChar_head? (x : Char) (s : List Char) {c : Char}
    (hc : c ≠ x) (h : s.head? = some c) :
    (rstripChar x s).head? = some c := by
  rw [rstripChar, List.head?_reverse]
  refine getLast?_dropWhile _ _ (by simp [hc]) ?_
  rwa [List.getLast?_reverse]

/-! ## Helper lemmas: hyphen collapsing -/

lemma collapseGo_subset (s : List Char) : ∀ (b : Bool) {c : Char},
    c ∈ collapseGo b s → c ∈ s := by
  induction s with
  | nil => intro b c h; cases b <;> simp [collapseGo] at h
  | cons a rest ih =>
    intro b c h
    cases b with
    | true =>
      rw [collapseGo] at h
      by_cases ha : a = '-'
      · rw [if_pos ha] at h
        exact List.mem_cons_of_mem a (ih true h)
      · rw [if_neg ha] at h
        rcases List.mem_cons.mp h with h | h
        · subst h; exact List.mem_cons_self c rest
        · exact List.mem_cons_of_mem a (ih false h)
    | false =>
      rw [collapseGo] at h
      by_cases ha : a = '-'
      · rw [if_pos ha] at h
        rcases List.mem_cons.mp h with h | h
        · subst h; rw [ha]; exact List.mem_cons_self _ rest
        · exact List.mem_cons_of_mem a (ih true h)
      · rw [if_neg ha] at h
        rcases List.mem_cons.mp h with h | h
        · subst h; exact List.mem_cons_self c rest
        · exact List.mem_cons_of_mem a (ih false h)

lemma collapseGo_true_head? (s : List Char) :
    (collapseGo true s).head? ≠ some '-' := by
  induction s with
  | nil => simp [collapseGo]
  | cons a rest ih =>
    rw [collapseGo]
    by_cases ha : a = '-'
    · rw [if_pos ha]
      exact ih
    · rw [if_neg ha]
      simpa using ha

lemma collapseGo_false_head? (s : List Char) :
    (collapseGo false s).head? = s.head? := by
  cases s with
  | nil => rfl
  | cons a rest =>
    rw [collapseGo]
    by_cases ha : a = '-'
    · rw [if_pos ha, ha]
      simp
    · rw [if_neg ha]
      simp

lemma collapseGo_noDouble (s : List Char) :
    ∀ b, noDoubleHyphen (collapseGo b s) = true := by
  induction s with
  | nil => intro b; cases b <;> simp [collapseGo, noDoubleHyphen]
  | cons a rest ih =>
    intro b
    cases b with
    | true =>
      rw [collapseGo]
      by_cases ha : a = '-'
      · rw [if_pos ha]
        exact ih true
      · rw [if_neg ha]
        cases hx : collapseGo false rest with
        | nil => rfl
        | cons y ys =>
          have hnd := ih false
          rw [hx] at hnd
          have ha' : (a == '-') = false := by simpa using ha
          rw [noDoubleHyphen]
          simp [ha', hnd]
    | false =>
      rw [collapseGo]
      by_cases ha : a = '-'
      · rw [if_pos ha]
        cases hx : collapseGo true rest with
        | nil => rfl
        | cons y ys =>
          have hy : y ≠ '-' := by
            intro hy
            apply collapseGo_true_head? rest
            rw [hx, hy]
            rfl
          have hy' : (y == '-') = false := by simpa using hy
          have hnd := ih true
          rw [hx] at hnd
          rw [noDoubleHyphen]
          simp [hy', hnd]
      · rw [if_neg ha]
        cases hx : collapseGo false rest with
        | nil => rfl
        | cons y ys =>
          have hnd := ih false
          rw [hx] at hnd
          have ha' : (a == '-') = false := by simpa using ha
          rw [noDoubleHyphen]
          simp [ha', hnd]

lemma collapseGo_getLast? (s : List Char) : ∀ (b : Bool) {c : Char},
    c ≠ '-' → s.getLast? = some c → (collapseGo b s).getLast? = some c := by
  induction s with
  | nil => intro b c _ h; simp at h
  | cons a rest ih =>
    intro b c hc h
    cases rest with
    | nil =>
      simp only [List.getLast?_singleton, Option.some.injEq] at h
      subst h
      cases b <;>
        · rw [collapseGo, if_neg hc]
          simp [collapseGo]
    | cons r rs =>
      rw [List.getLast?_cons_cons] at h
      cases b with
      | true =>
        rw [collapseGo]
        by_cases ha : a = '-'
        · rw [if_pos ha]
          exact ih true hc h
        · rw [if_neg ha]
          have htail := ih false hc h
          cases hx : collapseGo false (r :: rs) with
          | nil => rw [hx] at htail; simp at htail
          | cons y ys =>
            rw [hx] at htail
            rw [List.getLast?_cons_cons]
            exact htail
      | false =>
        rw [collapseGo]
        by_cases ha : a = '-'
        · rw [if_pos ha]
          have htail := ih true hc h
          cases hx : collapseGo true (r :: rs) with
          | nil => rw [hx] at htail; simp at htail
          | cons y ys =>
            rw [hx] at htail
            rw [List.getLast?_cons_cons]
            exact htail
        · rw [if_neg ha]
          have htail := ih false hc h
          cases hx : collapseGo false (r :: rs) with
          | nil => rw [hx] at htail; simp at htail
          | cons y ys =>
            rw [hx] at htail
            rw [List.getLast?_cons_cons]
            exact htail

/-! ## Helper lemmas: take -/

lemma head?_take {s : List Char} {n : Nat} (hn : n ≠ 0) :
    (s.take n).head? = s.head? := by
  cases s with
  | nil => simp
  | cons a rest =>
    cases n with
    | zero => exact absurd rfl hn
    | succ n => simp

lemma noDoubleHyphen_take (s : List Char) (h : noDoubleHyphen s = true) :
    ∀ n, noDoubleHyphen (s.take n) = true := by
  induction s with
  | nil => intro n; simp [noDoubleHyphen]
  | cons a rest ih =>
    intro n
    cases rest with
    | nil =>
      cases n with
      | zero => simp [noDoubleHyphen]
      | succ n => simp [noDoubleHyphen]
    | cons b bs =>
      rw [noDoubleHyphen, Bool.and_eq_true] at h
      cases n with
      | zero => simp [noDoubleHyphen]
      | succ n =>
        cases n with
        | zero => simp [noDoubleHyphen]
        | succ m =>
          have htail := ih h.2 (m + 1)
          simp only [List.take_succ_cons] at htail ⊢
          rw [noDoubleHyphen]
          simp only [Bool.and_eq_true]
          exact ⟨h.1, htail⟩

/-! ## Helper lemmas: character classes -/

lemma isSchemaChar_sub (c : Char) :
    isSchemaChar (if isSchemaChar c then c else '_') = true := by
  by_cases h : isSchemaChar c = true
  · rw [if_pos h]; exact h
  · rw [if_neg h]; decide

lemma isSubdomainChar_sub (c : Char) :
    isSubdomainChar (if isSubdomainChar c then c else '-') = true := by
  by_cases h : isSubdomainChar c = true
  · rw [if_pos h]; exact h
  · rw [if_neg h]; decide

lemma schemaChar_alpha_lowercase {c : Char} (hc : isSchemaChar c = true)
    (ha : pyIsAlpha c = true) : 'a' ≤ c ∧ c ≤ 'z' := by
  simp only [isSchemaChar, decide_eq_true_eq] at hc
  simp only [pyIsAlpha, decide_eq_true_eq] at ha
  rcases hc with h | h | h
  · exact h
  · rcases ha with h2 | h2
    · exact absurd (le_trans h2.1 h.2) (by decide)
    · exact absurd (le_trans h2.1 h.2) (by decide)
  · subst h
    rcases ha with h2 | h2
    · exact absurd h2.1 (by decide)
    · exact absurd h2.2 (by decide)

/-! ## Main property lemma for generate_schema_name -/

lemma generate_schema_name_some {username : List Char} (h : username ≠ []) :
    ∃ r, generate_schema_name username = some r ∧ matchesSchemaRegex r = true := by
  unfold generate_schema_name
  split
  · next heq =>
    exfalso
    apply h
    simpa using heq
  · next c0 rest heq =>
    refine ⟨_, rfl, ?_⟩
    have hchars : ∀ c ∈ c0 :: rest, isSchemaChar c = true := by
      intro c hc
      rw [← heq] at hc
      obtain ⟨c', _, rfl⟩ := List.mem_map.mp hc
      exact isSchemaChar_sub c'
    set s1 : List Char :=
      if pyIsAlpha c0 then c0 :: rest else "tenant_".data ++ (c0 :: rest) with hs1
    have hchars1 : ∀ c ∈ s1, isSchemaChar c = true := by
      intro c hc
      rw [hs1] at hc
      by_cases halpha : pyIsAlpha c0 = true
      · rw [if_pos halpha] at hc
        exact hchars c hc
      · rw [if_neg halpha] at hc
        rcases List.mem_append.mp hc with hmem | hmem
        · exact (by decide : ∀ x ∈ "tenant_".data, isSchemaChar x = true) c hmem
        · exact hchars c hmem
    have hhead : ∃ h1, s1.head? = some h1 ∧ 'a' ≤ h1 ∧ h1 ≤ 'z' := by
      by_cases halpha : pyIsAlpha c0 = true
      · refine ⟨c0, ?_, schemaChar_alpha_lowercase (hchars c0 (List.mem_cons_self c0 rest)) halpha⟩
        rw [hs1, if_pos halpha]
        rfl
      · refine ⟨'t', ?_, by decide, by decide⟩
        rw [hs1, if_neg halpha]
        rfl
    obtain ⟨h1, hh1, hlow, hhigh⟩ := hhead
    have hne : h1 ≠ '_' := by
      intro he
      subst he
      exact absurd hlow (by decide)
    have hhead2 : ((s1.take 63).head?) = some h1 := by
      rw [head?_take (by omega)]
      exact hh1
    have hhead3 : (rstripChar '_' (s1.take 63)).head? = some h1 :=
      rstripChar_head? '_' _ hne hhead2
    have hlen : (rstripChar '_' (s1.take 63)).length ≤ 63 :=
      le_trans (rstripChar_length_le _ _) (List.length_take_le _ _)
    have hsub : ∀ c ∈ rstripChar '_' (s1.take 63), isSchemaChar c = true := by
      intro c hc
      exact hchars1 c ((List.take_sublist _ _).subset (rstripChar_subset _ _ hc))
    cases hr : rstripChar '_' (s1.take 63) with
    | nil => rw [hr] at hhead3; cases hhead3
    | cons rh rt =>
      rw [hr] at hhead3 hlen hsub
      simp only [List.head?_cons, Option.some.injEq] at hhead3
      subst hhead3
      rw [matchesSchemaRegex]
      simp only [Bool.and_eq_true, decide_eq_true_eq, List.all_eq_true]
      refine ⟨⟨⟨hlow, hhigh⟩, ?_⟩, ?_⟩
      · intro c hc
        exact hsub c (List.mem_cons_of_mem _ hc)
      · simp only [List.length_cons] at hlen
        omega

/-! ## Main property lemma for generate_subdomain -/

lemma generate_subdomain_props (username : List Char) :
    (∀ c ∈ generate_subdomain username, isSubdomainChar c = true) ∧
    (generate_subdomain username).head? ≠ some '-' ∧
    noDoubleHyphen (generate_subdomain username) = true ∧
    (generate_subdomain username).length ≤ 63 ∧
    ((subdomainBeforeTruncation username).length ≤ 63 →
      (generate_subdomain username).getLast? ≠ some '-') := by
  set s0 : List Char :=
    (username.map pyLower).map (fun c => if isSubdomainChar c then c else '-')
    with hs0
  set st : List Char := pyStrip '-' s0 with hst
  have hcoll : subdomainBeforeTruncation username = collapseGo false st := rfl
  have hgen : generate_subdomain username = (collapseGo false st).take 63 := rfl
  refine ⟨?_, ?_, ?_, ?_, ?_⟩
  · intro c hc
    rw [hgen] at hc
    have h1 : c ∈ collapseGo false st := (List.take_sublist _ _).subset hc
    have h2 : c ∈ st := collapseGo_subset st false h1
    have h3 : c ∈ s0 := by
      rw [hst, pyStrip] at h2
      exact (List.dropWhile_sublist _).subset (rstripChar_subset _ _ h2)
    rw [hs0] at h3
    obtain ⟨c', _, rfl⟩ := List.mem_map.mp h3
    exact isSubdomainChar_sub c'
  · rw [hgen, head?_take (by omega), collapseGo_false_head?]
    rw [hst, pyStrip]
    cases hd : s0.dropWhile (fun c => c == '-') with
    | nil => simp [rstripChar]
    | cons d ds =>
      have hdh : (fun c => c == '-') d = false :=
        head?_dropWhile_not (fun c => c == '-') s0 (by rw [hd]; rfl)
      have hdne : d ≠ '-' := by simpa using hdh
      rw [rstripChar_head? '-' (d :: ds) hdne rfl]
      simpa using hdne
  · rw [hgen]
    exact noDoubleHyphen_take _ (collapseGo_noDouble st false) 63
  · rw [hgen]
    exact List.length_take_le _ _
  · intro hle
    rw [hcoll] at hle
    rw [hgen, List.take_of_length_le hle]
    cases hl : st.getLast? with
    | none =>
      have : st = [] := List.getLast?_eq_none_iff.mp hl
      rw [this]
      simp [collapseGo]
    | some c =>
      have hcne : c ≠ '-' := by
        intro he
        subst he
        exact rstripChar_getLast? '-' (s0.dropWhile (fun c => c == '-')) hl
      rw [collapseGo_getLast? st false hcne hl]
      simpa using hcne

/-! ## Helper lemmas: the signal handler -/

lemma create_tenant_isOk (created : Bool) (inst : UserRec) (db : TenantDB)
    (base_domain : List Char) (cok dok : Bool) (h : inst.username ≠ []) :
    (create_tenant_on_user_signup created inst db base_domain cok dok).isOk = true := by
  unfold create_tenant_on_user_signup
  split
  · rfl
  · split
    · rfl
    · split
      · rfl
      · split
        · next heq =>
          obtain ⟨base, hbase, -⟩ := generate_schema_name_some h
          rw [hbase] at heq
          cases heq
        · next base heq =>
          obtain ⟨k, hres, -, -⟩ := resolveUnique_full (schemaCandidate base)
            db.schemas (schemaCandidate_injective base)
          split
          · next heq2 => rw [hres] at heq2; cases heq2
          · next schema heq2 =>
            split
            · rfl
            · obtain ⟨k2, hres2, -, -⟩ := resolveUnique_full
                (fullDomainCandidate (generate_subdomain inst.username) base_domain)
                db.domains (fullDomainCandidate_injective _ _)
              split
              · next heq3 => rw [hres2] at heq3; cases heq3
              · next fd heq3 =>
                split
                · rfl
                · rfl

lemma create_tenant_clientFail (inst : UserRec) (db : TenantDB)
    (base_domain : List Char) (dok : Bool) (h : inst.username ≠ [])
    (hht : inst.has_tenant = false) (hsu : inst.is_superuser = false) :
    create_tenant_on_user_signup true inst db base_domain false dok
      = .ok (.loggedError, db) := by
  unfold create_tenant_on_user_signup
  split
  · next hcond => exact absurd hcond (by decide)
  · split
    · next hcond => rw [hht] at hcond; exact absurd hcond (by decide)
    · split
      · next hcond => rw [hsu] at hcond; exact absurd hcond (by decide)
      · split
        · next heq =>
          obtain ⟨base, hbase, -⟩ := generate_schema_name_some h
          rw [hbase] at heq
          cases heq
        · next base heq =>
          obtain ⟨k, hres, -, -⟩ := resolveUnique_full (schemaCandidate base)
            db.schemas (schemaCandidate_injective base)
          split
          · next heq2 => rw [hres] at heq2; cases heq2
          · next schema heq2 =>
            split
            · rfl
            · next hcond => exact absurd (by decide) hcond

lemma create_tenant_superuser_skip (created : Bool) (inst : UserRec) (db : TenantDB)
    (base_domain : List Char) (cok dok : Bool) (hsu : inst.is_superuser = true) :
    create_tenant_on_user_signup created inst db base_domain cok dok
      = .ok (.skipped, db) := by
  cases created with
  | false => rfl
  | true =>
    cases hht : inst.has_tenant with
    | true => simp [create_tenant_on_user_signup, hht]
    | false => simp [create_tenant_on_user_signup, hht, hsu]

/-! ## Claim theorems -/

/-- C1, amended: for every NON-EMPTY username, `generate_schema_name` returns a
string matching `^[a-z][a-z0-9_]{0,62}$`; in particular the username
`"Jane.Doe!"` yields `"jane_doe"`.  (As stated the claim quantifies over every
username string, but on the empty username the code raises `IndexError` at
`schema_name[0]` instead of returning a string — see the counterexample.) -/
theorem C1_generate_schema_name_regex :
    (∀ username : List Char, username ≠ [] →
      ∃ r, generate_schema_name username = some r ∧ matchesSchemaRegex r = true) ∧
    generate_schema_name "Jane.Doe!".data = some "jane_doe".data := by
  constructor
  · intro u hu
    exact generate_schema_name_some hu
  · rfl

/-- C1 witness: the amended claim applied at the concrete username
`"Jane.Doe!"`. -/
theorem C1_generate_schema_name_regex_witness :
    ∃ r, generate_schema_name "Jane.Doe!".data = some r ∧ matchesSchemaRegex r = true :=
  C1_generate_schema_name_regex.1 "Jane.Doe!".data (by decide)

/-- C1 counterexample: at the empty username, `generate_schema_name` does not
return any string at all (the Python code raises `IndexError`), so the claim
as stated — every username yields a string matching the regex — is false. -/
theorem C1_empty_username_counterexample :
    ¬ ∃ r, generate_schema_name [] = some r ∧ matchesSchemaRegex r = true := by
  rintro ⟨r, hr, -⟩
  rw [show generate_schema_name [] = none from rfl] at hr
  cases hr

/-- C2, amended: for every username, `generate_subdomain` returns only
characters from `[a-z0-9-]`, with no leading hyphen, no two consecutive
hyphens, and length at most 63; the output also has no trailing hyphen
whenever the pre-truncation string has at most 63 characters — but the final
`[:63]` truncation can cut directly after a hyphen and leave a trailing
hyphen, so the no-trailing-hyphen part of the claim as stated is false (see
the counterexample). -/
theorem C2_generate_subdomain_charset : ∀ username : List Char,
    (∀ c ∈ generate_subdomain username, isSubdomainChar c = true) ∧
    (generate_subdomain username).head? ≠ some '-' ∧
    noDoubleHyphen (generate_subdomain username) = true ∧
    (generate_subdomain username).length ≤ 63 ∧
    ((subdomainBeforeTruncation username).length ≤ 63 →
      (generate_subdomain username).getLast? ≠ some '-') :=
  generate_subdomain_props

/-- C2 witness: the amended claim applied at the concrete username
`"John_Smith!"` (whose pre-truncation subdomain is short enough, so the
no-trailing-hyphen conclusion also fires). -/
theorem C2_generate_subdomain_charset_witness :
    noDoubleHyphen (generate_subdomain "John_Smith!".data) = true ∧
    (generate_subdomain "John_Smith!".data).getLast? ≠ some '-' :=
  ⟨(C2_generate_subdomain_charset "John_Smith!".data).2.2.1,
   (C2_generate_subdomain_charset "John_Smith!".data).2.2.2.2 (by decide)⟩

/-- C2 counterexample: on the 64-character username of 62 `a`s, a dot and a
`b`, the `[:63]` truncation cuts directly after the substituted hyphen, so the
output ends in a hyphen and the claimed property fails. -/
theorem C2_trailing_hyphen_counterexample :
    subdomainOk (generate_subdomain longDotUsername) = false ∧
    (generate_subdomain longDotUsername).getLast? = some '-' := by decide

/-- C3, amended: exceptions raised inside the `try` block (tenant creation and
domain creation) are caught and logged, so for every newly created
non-superuser user WITH A NON-EMPTY USERNAME the handler never propagates an
exception; but schema-name derivation and the schema uniqueness loop run
before the `try` block, so an exception there — e.g. the `IndexError` that
`generate_schema_name` raises on an empty username — propagates and aborts
user creation (see the counterexample). -/
theorem C3_exception_swallowing (created : Bool) (inst : UserRec) (db : TenantDB)
    (base_domain : List Char) (cok dok : Bool) (h : inst.username ≠ []) :
    (create_tenant_on_user_signup created inst db base_domain cok dok).isOk = true ∧
    (created = true → inst.has_tenant = false → inst.is_superuser = false →
      create_tenant_on_user_signup true inst db base_domain false dok
        = .ok (.loggedError, db)) := by
  refine ⟨create_tenant_isOk created inst db base_domain cok dok h, ?_⟩
  intro _ hht hsu
  exact create_tenant_clientFail inst db base_domain dok h hht hsu

/-- C3 witness: the amended claim applied at a concrete non-superuser user
whose tenant creation fails: the handler succeeds and records the logged
failure. -/
theorem C3_exception_swallowing_witness :
    (create_tenant_on_user_signup true ⟨"bob".data, false, false⟩ ⟨[], []⟩
      "myapp.com".data false true).isOk = true ∧
    create_tenant_on_user_signup true ⟨"bob".data, false, false⟩ ⟨[], []⟩
      "myapp.com".data false true = .ok (.loggedError, ⟨[], []⟩) := by
  have h := C3_exception_swallowing true ⟨"bob".data, false, false⟩ ⟨[], []⟩
    "myapp.com".data false true (by decide)
  exact ⟨h.1, h.2 rfl rfl rfl⟩

/-- C3 counterexample: for a newly created non-superuser user with the empty
username, the handler propagates the `IndexError` raised by schema-name
derivation (which happens before the `try` block), contradicting the claim
that any exception during tenant setup is caught. -/
theorem C3_empty_username_counterexample :
    create_tenant_on_user_signup true ⟨[], false, false⟩ ⟨[], []⟩
      "myapp.com".data true true = .error "IndexError: string index out of range" := by
  rfl

/-- C4: both uniqueness loops try candidates in deterministic order — schema
names `base, base_1, base_2, …` and full domains `base.d, base1.d, base2.d, …`
— and return the first candidate not among the existing values, which is
therefore not equal to any existing schema name (respectively any existing
domain string) at the time of the check. -/
theorem C4_collision_resolution (schema_base sub_base base_domain : List Char)
    (schemas domains : List (List Char)) :
    (∃ k, resolveUnique (schemaCandidate schema_base) schemas
        (schemas.length + 1) 0 = some (schemaCandidate schema_base k) ∧
      schemaCandidate schema_base k ∉ schemas ∧
      ∀ j, j < k → schemaCandidate schema_base j ∈ schemas) ∧
    (∃ k, resolveUnique (fullDomainCandidate sub_base base_domain) domains
        (domains.length + 1) 0 = some (fullDomainCandidate sub_base base_domain k) ∧
      fullDomainCandidate sub_base base_domain k ∉ domains ∧
      ∀ j, j < k → fullDomainCandidate sub_base base_domain j ∈ domains) :=
  ⟨resolveUnique_full _ _ (schemaCandidate_injective schema_base),
   resolveUnique_full _ _ (fullDomainCandidate_injective sub_base base_domain)⟩

/-- C4 witness: the claim applied at a concrete collision state: schema base
`"bob"` with `"bob"` taken, and subdomain base `"bob"` with no taken domain. -/
theorem C4_collision_resolution_witness :
    (∃ k, resolveUnique (schemaCandidate "bob".data) ["bob".data] 2 0
        = some (schemaCandidate "bob".data k) ∧
      schemaCandidate "bob".data k ∉ ["bob".data] ∧
      ∀ j, j < k → schemaCandidate "bob".data j ∈ ["bob".data]) ∧
    (∃ k, resolveUnique (fullDomainCandidate "bob".data "x.com".data) [] 1 0
        = some (fullDomainCandidate "bob".data "x.com".data k) ∧
      fullDomainCandidate "bob".data "x.com".data k ∉ ([] : List (List Char)) ∧
      ∀ j, j < k → fullDomainCandidate "bob".data "x.com".data j
        ∈ ([] : List (List Char))) :=
  C4_collision_resolution "bob".data "bob".data "x.com".data ["bob".data] []

/-- C5: for every user with `is_superuser` true, the handler returns without
creating a tenant or a domain: the database is unchanged and the outcome is
the early-return skip. -/
theorem C5_superuser_skips_provisioning (created : Bool) (inst : UserRec)
    (db : TenantDB) (base_domain : List Char) (cok dok : Bool)
    (hsu : inst.is_superuser = true) :
    create_tenant_on_user_signup created inst db base_domain cok dok
      = .ok (.skipped, db) :=
  create_tenant_superuser_skip created inst db base_domain cok dok hsu

/-- C5 witness: the claim applied at a concrete newly created superuser. -/
theorem C5_superuser_skips_provisioning_witness :
    create_tenant_on_user_signup true ⟨"root".data, true, false⟩ ⟨[], []⟩
      "myapp.com".data true true = .ok (.skipped, ⟨[], []⟩) :=
  C5_superuser_skips_provisioning true ⟨"root".data, true, false⟩ ⟨[], []⟩
    "myapp.com".data true true rfl

/-- C6: the derived status string is `"suspended"` if `is_suspended`,
otherwise `"active"` if `is_active`, otherwise `"inactive"`, and the list and
detail serializers compute it identically. -/
theorem C6_status_derivation (obj : ClientRec) :
    TenantListSerializer.get_status obj = TenantDetailSerializer.get_status obj ∧
    (obj.is_suspended = true →
      TenantListSerializer.get_status obj = "suspended") ∧
    (obj.is_suspended = false → obj.is_active = true →
      TenantListSerializer.get_status obj = "active") ∧
    (obj.is_suspended = false → obj.is_active = false →
      TenantListSerializer.get_status obj = "inactive") := by
  refine ⟨rfl, ?_, ?_, ?_⟩
  · intro h1
    simp [TenantListSerializer.get_status, h1]
  · intro h1 h2
    simp [TenantListSerializer.get_status, h1, h2]
  · intro h1 h2
    simp [TenantListSerializer.get_status, h1, h2]

/-- C6 witness: the claim applied at three concrete tenant records, one per
status. -/
theorem C6_status_derivation_witness :
    TenantListSerializer.get_status
      ⟨"s", "n", 1, true, true, some 5, "free", 0, 0, 0, 0, 0, ""⟩ = "suspended" ∧
    TenantListSerializer.get_status
      ⟨"s", "n", 1, true, false, none, "free", 0, 0, 0, 0, 0, ""⟩ = "active" ∧
    TenantListSerializer.get_status
      ⟨"s", "n", 1, false, false, none, "free", 0, 0, 0, 0, 0, ""⟩ = "inactive" :=
  ⟨(C6_status_derivation _).2.1 rfl,
   (C6_status_derivation _).2.2.1 rfl rfl,
   (C6_status_derivation _).2.2.2 rfl rfl⟩

/-- C7: the suspend serializer rejects, with a field-level error on
`"reason"`, every input with `suspend=true` and a missing or empty reason, and
accepts every input with `suspend=false` regardless of the reason. -/
theorem C7_suspend_reason_validation (reason : Option String) :
    TenantSuspendSerializer.validate true none
      = .error ("reason", "Reason is required when suspending a tenant.") ∧
    TenantSuspendSerializer.validate true (some "")
      = .error ("reason", "Reason is required when suspending a tenant.") ∧
    TenantSuspendSerializer.validate false reason = .ok (false, reason) := by
  refine ⟨rfl, rfl, ?_⟩
  rw [TenantSuspendSerializer.validate]
  simp

/-- C7 witness: the claim applied at the concrete reason `"tos violation"`. -/
theorem C7_suspend_reason_validation_witness :
    TenantSuspendSerializer.validate true none
      = .error ("reason", "Reason is required when suspending a tenant.") ∧
    TenantSuspendSerializer.validate true (some "")
      = .error ("reason", "Reason is required when suspending a tenant.") ∧
    TenantSuspendSerializer.validate false (some "tos violation")
      = .ok (false, some "tos violation") :=
  C7_suspend_reason_validation (some "tos violation")

/-- C8: the admin tenant-create owner validator rejects, with a field-level
error on `owner_id`, every request whose `owner_id` names a user who already
owns a tenant, and every `owner_id` naming no existing user; every failure it
produces is a field-level error keyed `owner_id`, never a process-level
exception. -/
theorem C8_owner_id_validation (users : List AdminUserRec) (value : Nat) :
    (users.find? (fun u => u.id == value) = none →
      TenantCreateSerializer.validate_owner_id users value
        = .error ("owner_id", "User not found.")) ∧
    (∀ u, users.find? (fun u => u.id == value) = some u → u.has_tenant = true →
      TenantCreateSerializer.validate_owner_id users value
        = .error ("owner_id", "User already has a tenant.")) ∧
    (∀ e, TenantCreateSerializer.validate_owner_id users value = .error e →
      e.1 = "owner_id") := by
  refine ⟨?_, ?_, ?_⟩
  · intro h
    simp [TenantCreateSerializer.validate_owner_id, h]
  · intro u h hu
    simp [TenantCreateSerializer.validate_owner_id, h, hu]
  · intro e h
    cases hf : users.find? (fun u => u.id == value) with
    | none =>
      simp only [TenantCreateSerializer.validate_owner_id, hf,
        Except.error.injEq] at h
      rw [← h]
    | some u =>
      by_cases ht : u.has_tenant = true
      · simp only [TenantCreateSerializer.validate_owner_id, hf, ht, if_true,
          Except.error.injEq] at h
        rw [← h]
      · simp only [TenantCreateSerializer.validate_owner_id, hf,
          Bool.not_eq_true] at h
        rw [if_neg ht] at h
        cases h

/-- C8 witness: the claim applied at a concrete user table with one user (id 3)
who already owns a tenant. -/
theorem C8_owner_id_validation_witness :
    TenantCreateSerializer.validate_owner_id [⟨3, true⟩] 4
      = .error ("owner_id", "User not found.") ∧
    TenantCreateSerializer.validate_owner_id [⟨3, true⟩] 3
      = .error ("owner_id", "User already has a tenant.") :=
  ⟨(C8_owner_id_validation [⟨3, true⟩] 4).1 (by decide),
   (C8_owner_id_validation [⟨3, true⟩] 3).2.1 ⟨3, true⟩ (by decide) rfl⟩

/-- C9: `Client.suspend` sets `is_suspended` and `suspended_at` and changes no
other field; `Client.unsuspend` clears them and changes no other field; after
either operation `is_suspended` holds exactly when `suspended_at` is
non-null. -/
theorem C9_suspend_unsuspend_frame (c : ClientRec) (now : Nat) :
    ((Client.suspend c now).is_suspended = true ∧
     (Client.suspend c now).suspended_at = some now ∧
     (Client.suspend c now).schema_name = c.schema_name ∧
     (Client.suspend c now).name = c.name ∧
     (Client.suspend c now).owner = c.owner ∧
     (Client.suspend c now).is_active = c.is_active ∧
     (Client.suspend c now).plan = c.plan ∧
     (Client.suspend c now).storage_used_mb = c.storage_used_mb ∧
     (Client.suspend c now).total_users = c.total_users ∧
     (Client.suspend c now).total_tournaments = c.total_tournaments ∧
     (Client.suspend c now).created_on = c.created_on ∧
     (Client.suspend c now).last_activity = c.last_activity ∧
     (Client.suspend c now).notes = c.notes) ∧
    ((Client.unsuspend c).is_suspended = false ∧
     (Client.unsuspend c).suspended_at = none ∧
     (Client.unsuspend c).schema_name = c.schema_name ∧
     (Client.unsuspend c).name = c.name ∧
     (Client.unsuspend c).owner = c.owner ∧
     (Client.unsuspend c).is_active = c.is_active ∧
     (Client.unsuspend c).plan = c.plan ∧
     (Client.unsuspend c).storage_used_mb = c.storage_used_mb ∧
     (Client.unsuspend c).total_users = c.total_users ∧
     (Client.unsuspend c).total_tournaments = c.total_tournaments ∧
     (Client.unsuspend c).created_on = c.created_on ∧
     (Client.unsuspend c).last_activity = c.last_activity ∧
     (Client.unsuspend c).notes = c.notes) ∧
    (((Client.suspend c now).is_suspended = true ↔
      (Client.suspend c now).suspended_at ≠ none) ∧
     ((Client.unsuspend c).is_suspended = true ↔
      (Client.unsuspend c).suspended_at ≠ none)) := by
  refine ⟨⟨rfl, rfl, rfl, rfl, rfl, rfl, rfl, rfl, rfl, rfl, rfl, rfl, rfl⟩,
    ⟨rfl, rfl, rfl, rfl, rfl, rfl, rfl, rfl, rfl, rfl, rfl, rfl, rfl⟩, ?_, ?_⟩
  · simp [Client.suspend]
  · simp [Client.unsuspend]

/-- C9 witness: the claim applied at a concrete tenant record and timestamp. -/
theorem C9_suspend_unsuspend_frame_witness :
    (Client.suspend ⟨"s", "n", 1, true, false, none, "free", 0, 0, 0, 0, 0, ""⟩ 7).is_suspended
      = true ∧
    (Client.suspend ⟨"s", "n", 1, true, false, none, "free", 0, 0, 0, 0, 0, ""⟩ 7).suspended_at
      = some 7 ∧
    (Client.unsuspend ⟨"s", "n", 1, true, false, none, "free", 0, 0, 0, 0, 0, ""⟩).suspended_at
      = none :=
  ⟨(C9_suspend_unsuspend_frame ⟨"s", "n", 1, true, false, none, "free", 0, 0, 0, 0, 0, ""⟩ 7).1.1,
   (C9_suspend_unsuspend_frame ⟨"s", "n", 1, true, false, none, "free", 0, 0, 0, 0, 0, ""⟩ 7).1.2.1,
   (C9_suspend_unsuspend_frame ⟨"s", "n", 1, true, false, none, "free", 0, 0, 0, 0, 0, ""⟩ 7).2.1.2.1⟩

/-- C10: `Domain.get_tenant_from_subdomain` returns `None` for the admin
subdomain, for a subdomain with no matching domain row, and for a matched
tenant that cannot access (suspended or inactive); for a non-admin subdomain
with a matching row it returns the tenant exactly when it is active and not
suspended, and any returned tenant is active and not suspended. -/
theorem C10_get_tenant_from_subdomain (admin_subdomain tenant_base_domain : List Char)
    (domains : List DomainRec) (subdomain : List Char) :
    (subdomain = admin_subdomain →
      Domain.get_tenant_from_subdomain admin_subdomain tenant_base_domain
        domains subdomain = none) ∧
    (domains.find? (fun d => d.domain == subdomain ++ '.' :: tenant_base_domain)
        = none →
      Domain.get_tenant_from_subdomain admin_subdomain tenant_base_domain
        domains subdomain = none) ∧
    (∀ d, domains.find? (fun d => d.domain == subdomain ++ '.' :: tenant_base_domain)
        = some d → Client.can_access d.tenant = false →
      Domain.get_tenant_from_subdomain admin_subdomain tenant_base_domain
        domains subdomain = none) ∧
    (∀ d, subdomain ≠ admin_subdomain →
      domains.find? (fun d => d.domain == subdomain ++ '.' :: tenant_base_domain)
        = some d → d.tenant.is_active = true → d.tenant.is_suspended = false →
      Domain.get_tenant_from_subdomain admin_subdomain tenant_base_domain
        domains subdomain = some d.tenant) ∧
    (∀ t, Domain.get_tenant_from_subdomain admin_subdomain tenant_base_domain
        domains subdomain = some t →
      t.is_active = true ∧ t.is_suspended = false) := by
  refine ⟨?_, ?_, ?_, ?_, ?_⟩
  · intro h
    rw [Domain.get_tenant_from_subdomain, if_pos h]
  · intro h
    rw [Domain.get_tenant_from_subdomain]
    by_cases hadm : subdomain = admin_subdomain
    · rw [if_pos hadm]
    · rw [if_neg hadm]
      simp [h]
  · intro d hf hca
    rw [Domain.get_tenant_from_subdomain]
    by_cases hadm : subdomain = admin_subdomain
    · rw [if_pos hadm]
    · rw [if_neg hadm]
      simp [hf, hca]
  · intro d hadm hf hact hsus
    have hca : Client.can_access d.tenant = true := by
      rw [Client.can_access, hact, hsus]
      rfl
    rw [Domain.get_tenant_from_subdomain, if_neg hadm]
    simp [hf, hca]
  · intro t h
    rw [Domain.get_tenant_from_subdomain] at h
    by_cases hadm : subdomain = admin_subdomain
    · rw [if_pos hadm] at h
      cases h
    · rw [if_neg hadm] at h
      split at h
      · next d heq =>
        by_cases hca : Client.can_access d.tenant = true
        · rw [if_pos hca] at h
          injection h with h
          subst h
          simpa [Client.can_access, Bool.and_eq_true, Bool.not_eq_true'] using hca
        · rw [if_neg hca] at h
          cases h
      · cases h

/-- C10 witness: the claim applied at a concrete routing table: the subdomain
`bob` resolves to the active tenant, and the admin subdomain resolves to
nothing. -/
theorem C10_get_tenant_from_subdomain_witness :
    Domain.get_tenant_from_subdomain "admin".data "x.com".data
      [⟨"bob.x.com".data, ⟨"bob", "B", 1, true, false, none, "free", 0, 0, 0, 0, 0, ""⟩, true⟩]
      "bob".data
      = some ⟨"bob", "B", 1, true, false, none, "free", 0, 0, 0, 0, 0, ""⟩ ∧
    Domain.get_tenant_from_subdomain "admin".data "x.com".data [] "admin".data
      = none :=
  ⟨(C10_get_tenant_from_subdomain "admin".data "x.com".data
      [⟨"bob.x.com".data, ⟨"bob", "B", 1, true, false, none, "free", 0, 0, 0, 0, 0, ""⟩, true⟩]
      "bob".data).2.2.2.1
      ⟨"bob.x.com".data, ⟨"bob", "B", 1, true, false, none, "free", 0, 0, 0, 0, 0, ""⟩, true⟩
      (by decide) (by decide) rfl rfl,
   (C10_get_tenant_from_subdomain "admin".data "x.com".data [] "admin".data).1 rfl⟩

end Tabby
